import Mathlib

/-!
Shallow embedding of the goto-bangumi identity-resolution core.

The Go source (package `database`, package `refresh`, and the data model in
`internal/model/bangumi.go`) is translated into pure Lean definitions:

* GORM rows become Lean structures; nullable columns become `Option`.
* The bangumi table becomes an explicit `DBState` (list of rows in primary-key
  order plus the next auto-increment id).
* `db.Save` becomes `SaveBangumi`: insert with a fresh id when the primary key
  is zero, update-in-place otherwise; GORM's association handling (saving an
  embedded `MikanItem`/`TmdbItem` sets the parent's foreign-key column, and
  cascaded `EpisodeMetadata` children get their `BangumiID` set to the parent
  id) becomes `normalizeBangumi`.
* The `First(...)` lookup with `WHERE mikan_id = ? OR tmdb_id = ?` becomes
  `lookupBangumi` (`List.find?` over rows in primary-key order; SQL `NULL`
  never equals a literal, mirrored by `Option` equality).
* Fallible storage calls are modelled with `Except GormErr`; where a claim is
  about storage faults, the faulting lookup is an explicit parameter
  (`CreateBangumiCore`, `CheckNewTorrents`, `RefreshRSS`).
* The global mutex `bangumiCreateMutex` serializes every `CreateBangumi`
  call, so N concurrent calls are modelled as N sequential calls in an
  arbitrary order (`List.foldl CreateBangumi`).
-/

namespace GotoBangumi

/-- `model.MikanItem`: release-tracker catalog record (primary key is the
Mikan id itself). -/
structure MikanItem where
  id : Int
  officialTitle : String
  season : Int
  posterLink : String
  deriving DecidableEq, Repr

/-- `model.TmdbItem`: metadata-catalog record (primary key is the TMDB id). -/
structure TmdbItem where
  id : Int
  year : String
  originalTitle : String
  airDate : String
  episodeCount : Int
  title : String
  season : Int
  posterLink : String
  deriving DecidableEq, Repr

/-- `model.EpisodeMetadata`: structured parse result for one class of release
name. (`voteAverage` of `TmdbItem` is a float and irrelevant to every claim,
so it is omitted there; all fields of `EpisodeMetadata` are kept.) -/
structure EpisodeMetadata where
  id : Int
  title : String
  season : Int
  seasonRaw : String
  episode : Int
  sub : String
  subType : String
  group : String
  year : String
  resolution : String
  source : String
  audioInfo : String
  videoInfo : String
  bangumiID : Int
  deriving DecidableEq, Repr

/-- `model.Bangumi`: the canonical entity row. `mikanID`/`tmdbID` are the
nullable foreign-key columns, `mikanItem`/`tmdbItem` the (possibly absent)
embedded association objects, `episodeMetadata` the cascaded children. -/
structure Bangumi where
  id : Int
  officialTitle : String
  year : String
  season : Int
  mikanID : Option Int
  tmdbID : Option Int
  mikanItem : Option MikanItem
  tmdbItem : Option TmdbItem
  rrssLink : String
  episodeMetadata : List EpisodeMetadata
  epsCollect : Bool
  offset : Int
  includeFilter : String
  excludeFilter : String
  parse : String
  posterLink : String
  deleted : Bool
  deriving DecidableEq, Repr

/-- Go zero value of `model.Bangumi` (`var oldBangumi model.Bangumi`). -/
def defaultBangumi : Bangumi :=
  { id := 0, officialTitle := "", year := "", season := 0,
    mikanID := none, tmdbID := none, mikanItem := none, tmdbItem := none,
    rrssLink := "", episodeMetadata := [], epsCollect := false, offset := 0,
    includeFilter := "", excludeFilter := "", parse := "", posterLink := "",
    deleted := false }

/-- Storage errors as seen by the Go code: `gorm.ErrRecordNotFound` is
distinguished from every other fault. -/
inductive GormErr where
  | recordNotFound : GormErr
  | fault : String → GormErr
  deriving DecidableEq, Repr

/-- The bangumi table: rows in primary-key order plus the next
auto-increment primary key. -/
structure DBState where
  rows : List Bangumi
  nextID : Int
  deriving DecidableEq, Repr

/-- Fresh database. -/
def emptyDB : DBState := { rows := [], nextID := 1 }

/-- Lines 126-131 of `CreateBangumi`: take the scalar `TmdbID` if non-nil,
else the embedded `TmdbItem`'s id, else the Go zero value 0. -/
def extractTmdbID (b : Bangumi) : Int :=
  match b.tmdbID with
  | some t => t
  | none =>
    match b.tmdbItem with
    | some it => it.id
    | none => 0

/-- Lines 132-137 of `CreateBangumi`: take the scalar `MikanID` if non-nil,
else the embedded `MikanItem`'s id, else the Go zero value 0. -/
def extractMikanID (b : Bangumi) : Int :=
  match b.mikanID with
  | some t => t
  | none =>
    match b.mikanItem with
    | some it => it.id
    | none => 0

/-- Lines 162-166 of `CreateBangumi`: two `EpisodeMetadata` entries are the
same record when Title, Season, Group, Resolution and SubType all agree. -/
def sameKey (a b : EpisodeMetadata) : Bool :=
  a.title == b.title && a.season == b.season && a.group == b.group &&
    a.resolution == b.resolution && a.subType == b.subType

/-- Lines 157-175 of `CreateBangumi`: walk the candidate's entries; append an
entry (with `BangumiID` set to `bid`) only when no entry already attached —
including ones appended earlier in the same walk — has the same dedup key. -/
def mergeMetas (old : List EpisodeMetadata) (news : List EpisodeMetadata)
    (bid : Int) : List EpisodeMetadata :=
  match news with
  | [] => old
  | n :: ns =>
    if old.any fun e => sameKey e n then mergeMetas old ns bid
    else mergeMetas (old ++ [{ n with bangumiID := bid }]) ns bid

/-- GORM association handling performed by `db.Save`: a present embedded
`MikanItem`/`TmdbItem` is upserted and the parent's foreign-key column set to
its id; cascaded `EpisodeMetadata` children get `BangumiID` set to the parent
primary key. -/
def normalizeBangumi (b : Bangumi) : Bangumi :=
  { b with
    mikanID := match b.mikanItem with | some it => some it.id | none => b.mikanID,
    tmdbID := match b.tmdbItem with | some it => some it.id | none => b.tmdbID,
    episodeMetadata := b.episodeMetadata.map fun m => { m with bangumiID := b.id } }

/-- `db.Save(&b)` on the bangumi table: primary key 0 means insert with the
next auto-increment id; otherwise update the row with that id in place. -/
def SaveBangumi (s : DBState) (b : Bangumi) : DBState :=
  if b.id = 0 then
    { rows := s.rows ++ [normalizeBangumi { b with id := s.nextID }],
      nextID := s.nextID + 1 }
  else
    { rows := s.rows.map fun r => if r.id = b.id then normalizeBangumi b else r,
      nextID := s.nextID }

/-- Lines 148-175 of `CreateBangumi` (merge path): fill a null link when the
candidate carries the corresponding embedded catalog record, and merge the
candidate's `EpisodeMetadata` by dedup key. The two link conditions in the Go
code are sequential but independent (the first writes only `MikanItem`, the
second reads only `TmdbID`), so they are written as parallel record updates. -/
def mergeBangumi (old b : Bangumi) : Bangumi :=
  { old with
    mikanItem := if old.mikanID.isNone && b.mikanItem.isSome then b.mikanItem else old.mikanItem,
    tmdbItem := if old.tmdbID.isNone && b.tmdbItem.isSome then b.tmdbItem else old.tmdbItem,
    episodeMetadata := mergeMetas old.episodeMetadata b.episodeMetadata old.id }

/-- Lines 140-144 of `CreateBangumi`: `WHERE mikan_id = ? OR tmdb_id = ?`
followed by `First`, which returns the first matching row in primary-key
order or `gorm.ErrRecordNotFound`. A stored `NULL` column never equals a
literal (`none == some v` is `false`), matching SQL `NULL` semantics. -/
def lookupBangumi (s : DBState) (mikanID tmdbID : Int) : Except GormErr Bangumi :=
  match s.rows.find? (fun r => r.mikanID == some mikanID || r.tmdbID == some tmdbID) with
  | some r => Except.ok r
  | none => Except.error GormErr.recordNotFound

/-- Lines 140-179 of `CreateBangumi`, parameterized by the outcome of the
entity lookup so that storage faults can be injected: `err != nil && err !=
gorm.ErrRecordNotFound` returns the error (no write); on not-found the zero
`oldBangumi` has `ID = 0`, so the create path runs; a found row (`ID != 0`)
takes the merge path. -/
def CreateBangumiCore (lk : Except GormErr Bangumi) (s : DBState) (b : Bangumi) :
    Except GormErr DBState :=
  match lk with
  | Except.error e =>
    if e = GormErr.recordNotFound then Except.ok (SaveBangumi s b)
    else Except.error e
  | Except.ok old =>
    if old.id ≠ 0 then Except.ok (SaveBangumi s (mergeBangumi old b))
    else Except.ok (SaveBangumi s b)

/-- `DB.CreateBangumi` with the pure in-model lookup (which can only report
not-found, never a fault): the whole `resolveOrCreate` operation, executed
under the global `bangumiCreateMutex`. -/
def CreateBangumi (s : DBState) (b : Bangumi) : DBState :=
  match lookupBangumi s (extractMikanID b) (extractTmdbID b) with
  | Except.ok old =>
    if old.id ≠ 0 then SaveBangumi s (mergeBangumi old b) else SaveBangumi s b
  | Except.error _ => SaveBangumi s b

/-- Character-list version of "`n` occurs as a leading block of `h`". -/
def leadMatch : List Char → List Char → Bool
  | [], _ => true
  | _ :: _, [] => false
  | a :: as, b :: bs => a == b && leadMatch as bs

/-- Character-list version of "`n` occurs contiguously somewhere in `h`". -/
def someWhereMatch (n : List Char) : List Char → Bool
  | [] => n.isEmpty
  | c :: t => leadMatch n (c :: t) || someWhereMatch n t

/-- SQLite `instr(hay, needle) > 0`: `needle` occurs as a substring of
`hay` (an empty needle always occurs). -/
def strContains (hay needle : String) : Bool :=
  someWhereMatch needle.data hay.data

/-- `DB.GetBangumiParseByTitle` (lines 448-457): first stored
`EpisodeMetadata` row (primary-key order) whose `title` and `group` are both
substrings of the torrent name; `none` models the `gorm.ErrRecordNotFound`
return. `table` is the `episode_metadata` table in primary-key order. -/
def GetBangumiParseByTitle (table : List EpisodeMetadata) (torrentName : String) :
    Option EpisodeMetadata :=
  table.find? fun p => strContains torrentName p.title && strContains torrentName p.group

/-- Modelled from the spec: the `model.Torrent` struct is not under `src/`.
Spec §3 "Release": canonical release name, source URL, a download-system
correlation identifier, downloaded/renamed flags, the owning entity's
identifier once resolved, and the feed URL it arrived from
(`bangumiRRSSLink` stands for the Go field path `t.Bangumi.RRSSLink` that
`pullRss` writes). -/
structure Torrent where
  name : String
  url : String
  downloadUID : String
  downloaded : Bool
  renamed : Bool
  bangumiID : Int
  bangumiRRSSLink : String
  deriving DecidableEq, Repr

/-- Modelled from the spec: the title parser's result type is not under
`src/`; §6 gives `parse(rawName) -> ParsedTitle{title, ...} | null`. Only the
`Title` field is read by `FindNewBangumi`. -/
structure RawTitle where
  title : String
  deriving DecidableEq, Repr

/-- `DB.CheckNewTorrents` (lines 337-353): for each pulled torrent look up
the stored torrent by URL (`lk`, the by-URL lookup, which may fault); any
fault other than not-found aborts the whole batch with that error; otherwise
keep the torrents that are absent or not yet downloaded. -/
def CheckNewTorrents (lk : String → Except GormErr Torrent) :
    List Torrent → Except GormErr (List Torrent)
  | [] => Except.ok []
  | t :: ts =>
    match lk t.url with
    | Except.error e =>
      if e = GormErr.recordNotFound then
        match CheckNewTorrents lk ts with
        | Except.ok rest => Except.ok (t :: rest)
        | Except.error e2 => Except.error e2
      else Except.error e
    | Except.ok ex =>
      if ex.downloaded then CheckNewTorrents lk ts
      else
        match CheckNewTorrents lk ts with
        | Except.ok rest => Except.ok (t :: rest)
        | Except.error e2 => Except.error e2

/-- `getTorrents` (refresh package, lines 18-24): the `CheckNewTorrents`
error is discarded (`newTorrents, _ := ...`), leaving the nil slice on a
fault. The network fetch is an input (`pulled`). -/
def getTorrents (lk : String → Except GormErr Torrent) (pulled : List Torrent) :
    List Torrent :=
  match CheckNewTorrents lk pulled with
  | Except.ok l => l
  | Except.error _ => []

/-- `pullRss` (lines 26-32): filter to new torrents, then stamp each
torrent's `Bangumi.RRSSLink` with the feed URL. -/
def pullRss (lk : String → Except GormErr Torrent) (url : String)
    (pulled : List Torrent) : List Torrent :=
  (getTorrents lk pulled).map fun t => { t with bangumiRRSSLink := url }

/-- Per-torrent body of the `RefreshRSS` loop (lines 66-84): a metadata
lookup error skips just that torrent (`continue`); the by-URL existence
lookup's error is discarded (`existingTorrent, _ := ...`), so a fault acts
like absence; a torrent that exists and is downloaded is skipped; the rest
are stamped with the metadata's `BangumiID`, created and enqueued. The
returned list is the torrents actually created/enqueued. -/
def refreshLoop (mlk : String → Except GormErr EpisodeMetadata)
    (tlk : String → Option Torrent) (ts : List Torrent) : List Torrent :=
  ts.filterMap fun t =>
    match mlk t.name with
    | Except.error _ => none
    | Except.ok md =>
      match tlk t.url with
      | some ex =>
        if ex.downloaded then none else some { t with bangumiID := md.bangumiID }
      | none => some { t with bangumiID := md.bangumiID }

/-- `RefreshRSS` (lines 63-85): pull and pre-filter the feed via `pullRss`,
then run the per-torrent loop. `clk` is the by-URL torrent lookup used by
`CheckNewTorrents`, `mlk` the metadata-by-title lookup, `tlk` the by-URL
lookup inside the loop. -/
def RefreshRSS (clk : String → Except GormErr Torrent)
    (mlk : String → Except GormErr EpisodeMetadata)
    (tlk : String → Option Torrent) (url : String) (pulled : List Torrent) :
    List Torrent :=
  refreshLoop mlk tlk (pullRss clk url pulled)

/-- Go map assignment `m[k] = t`: overwrite the entry for `k` when present,
append otherwise (insertion-ordered association list). -/
def mapInsert (mp : List (String × Torrent)) (k : String) (t : Torrent) :
    List (String × Torrent) :=
  if mp.any fun p => p.1 == k then
    mp.map fun p => if p.1 == k then (k, t) else p
  else mp ++ [(k, t)]

/-- Per-torrent body of `FindNewBangumi` (lines 40-55): when the title match
index finds nothing AND the base admissibility filter passes, the torrent
name is handed to the title parser (recorded in the second accumulator
component) and, if parseable, the torrent is keyed by parsed title into the
dispatch map. -/
def findStep (table : List EpisodeMetadata) (filterTorrent : Torrent → Bool)
    (parseTitle : String → Option RawTitle)
    (acc : List (String × Torrent) × List Torrent) (t : Torrent) :
    List (String × Torrent) × List Torrent :=
  match GetBangumiParseByTitle table t.name with
  | some _ => acc
  | none =>
    if filterTorrent t then
      match parseTitle t.name with
      | some raw => (mapInsert acc.1 raw.title t, acc.2 ++ [t])
      | none => (acc.1, acc.2 ++ [t])
    else acc

/-- `FindNewBangumi` (lines 35-61): fold the per-torrent body over the pull.
First component: the `newTorrents` map (each entry is dispatched to
`createBangumi` via `go`); second component: the torrents whose names were
handed to the title parser. -/
def FindNewBangumi (table : List EpisodeMetadata) (filterTorrent : Torrent → Bool)
    (parseTitle : String → Option RawTitle) (torrents : List Torrent) :
    List (String × Torrent) × List Torrent :=
  torrents.foldl (findStep table filterTorrent parseTitle) ([], [])

/-- Candidate `b` coherently carries the release-tracker external id `m`:
whatever combination of the scalar field and the embedded record is present
names `m`. -/
def carriesMikan (b : Bangumi) (m : Int) : Bool :=
  match b.mikanItem with
  | some it => (b.mikanID == some m || b.mikanID == none) && it.id == m
  | none => b.mikanID == some m

/-- The dedup key of lines 161-166: (Title, Season, Group, Resolution,
SubType). -/
def dedupKey (m : EpisodeMetadata) : String × Int × String × String × String :=
  (m.title, m.season, m.group, m.resolution, m.subType)

/-- Dedup keys of a metadata list. -/
def metaKeys (l : List EpisodeMetadata) : List (String × Int × String × String × String) :=
  l.map dedupKey

/-! Concrete values used by witnesses and counterexamples. -/

/-- Zero value of `model.EpisodeMetadata` with the GORM default season 1. -/
def baseMeta : EpisodeMetadata :=
  { id := 0, title := "", season := 1, seasonRaw := "", episode := 0, sub := "",
    subType := "", group := "", year := "", resolution := "", source := "",
    audioInfo := "", videoInfo := "", bangumiID := 0 }

def c1m1 : EpisodeMetadata :=
  { baseMeta with title := "Frieren", group := "ABC", resolution := "1080p" }

def c1m2 : EpisodeMetadata :=
  { baseMeta with title := "Frieren", group := "ABC", resolution := "720p" }

def c1b1 : Bangumi :=
  { defaultBangumi with mikanID := some 11, episodeMetadata := [c1m1] }

def c1b2 : Bangumi :=
  { defaultBangumi with
    mikanItem := some { id := 11, officialTitle := "Frieren", season := 1, posterLink := "" },
    episodeMetadata := [c1m1, c1m2] }

/-- Candidate carrying only a release-tracker (Mikan) link. -/
def c2a : Bangumi := { defaultBangumi with mikanID := some 5, officialTitle := "Frieren" }

/-- Candidate carrying only a metadata-catalog (TMDB) id, for the same title. -/
def c2b : Bangumi := { defaultBangumi with tmdbID := some 7, officialTitle := "Frieren" }

def c2wb1 : Bangumi := { defaultBangumi with mikanID := some 5, officialTitle := "Frieren" }

def c2wit : TmdbItem :=
  { id := 7, year := "2023", originalTitle := "", airDate := "", episodeCount := 28,
    title := "Frieren", season := 1, posterLink := "" }

def c2wb2 : Bangumi :=
  { defaultBangumi with mikanID := some 5, tmdbItem := some c2wit, officialTitle := "Frieren" }

/-- Existing entity with a TMDB link and a null Mikan link. -/
def c3a : Bangumi := { defaultBangumi with tmdbID := some 7 }

/-- Candidate supplying the Mikan id only as the scalar external-ID field. -/
def c3b : Bangumi := { defaultBangumi with mikanID := some 5, tmdbID := some 7 }

def c3wOld : Bangumi := { defaultBangumi with id := 1, tmdbID := some 7 }

def c3wItem : MikanItem := { id := 11, officialTitle := "Frieren", season := 1, posterLink := "" }

def c3wB : Bangumi := { defaultBangumi with mikanItem := some c3wItem }

def em1080 : EpisodeMetadata :=
  { baseMeta with title := "Frieren", group := "ABC", resolution := "1080p" }

def em720 : EpisodeMetadata :=
  { baseMeta with title := "Frieren", group := "ABC", resolution := "720p" }

/-- Same five key fields as `em1080`, different non-key fields. -/
def em1080b : EpisodeMetadata := { em1080 with episode := 9, source := "WEB" }

def c5cand : Bangumi := { defaultBangumi with mikanID := some 11 }

def frierenMeta : EpisodeMetadata :=
  { baseMeta with title := "Frieren", group := "ABC", bangumiID := 1 }

def c8t1 : Torrent :=
  { name := "n1", url := "u1", downloadUID := "", downloaded := false, renamed := false,
    bangumiID := 0, bangumiRRSSLink := "" }

def c8t2 : Torrent := { c8t1 with name := "n2", url := "u2" }

def c8md : EpisodeMetadata := { baseMeta with title := "n", bangumiID := 9 }

/-- By-URL torrent lookup that faults on the first release's URL only. -/
def c8clkBad (u : String) : Except GormErr Torrent :=
  if u == "u1" then Except.error (GormErr.fault "io") else Except.error GormErr.recordNotFound

/-- By-URL torrent lookup with no stored torrents and no faults. -/
def c8clkOk (_ : String) : Except GormErr Torrent := Except.error GormErr.recordNotFound

def c8mlk (_ : String) : Except GormErr EpisodeMetadata := Except.ok c8md

def c8tlk (_ : String) : Option Torrent := none

def c9meta : EpisodeMetadata := { baseMeta with title := "Frieren", group := "ABC", bangumiID := 1 }

def c9t1 : Torrent :=
  { name := "[ABC] Frieren - 05 [1080p]", url := "q1", downloadUID := "", downloaded := false,
    renamed := false, bangumiID := 0, bangumiRRSSLink := "" }

def c9t2 : Torrent := { c9t1 with name := "[NEW] Apothecary - 01", url := "q2" }

def c9filter (_ : Torrent) : Bool := true

def c9parse (s : String) : Option RawTitle := some { title := s }

def c10row : Bangumi :=
  { defaultBangumi with id := 1, mikanID := some 41, officialTitle := "Frieren", year := "2023" }

def c10s : DBState := { rows := [c10row], nextID := 2 }

def c10b : Bangumi :=
  { defaultBangumi with mikanID := some 41, officialTitle := "Other", year := "1999" }

/-! Helper lemmas. -/

lemma normalizeBangumi_id (b : Bangumi) : (normalizeBangumi b).id = b.id := rfl

lemma normalizeBangumi_mikanItem (b : Bangumi) :
    (normalizeBangumi b).mikanItem = b.mikanItem := rfl

lemma normalizeBangumi_tmdbItem (b : Bangumi) :
    (normalizeBangumi b).tmdbItem = b.tmdbItem := rfl

lemma normalizeBangumi_mikanID_item {x : Bangumi} {it : MikanItem}
    (h : x.mikanItem = some it) : (normalizeBangumi x).mikanID = some it.id := by
  show (match x.mikanItem with | some y => some y.id | none => x.mikanID) = some it.id
  rw [h]

lemma normalizeBangumi_tmdbID_item {x : Bangumi} {it : TmdbItem}
    (h : x.tmdbItem = some it) : (normalizeBangumi x).tmdbID = some it.id := by
  show (match x.tmdbItem with | some y => some y.id | none => x.tmdbID) = some it.id
  rw [h]

lemma mergeBangumi_id (old b : Bangumi) : (mergeBangumi old b).id = old.id := rfl

lemma mergeBangumi_mikanItem (old b : Bangumi) :
    (mergeBangumi old b).mikanItem =
      if old.mikanID.isNone && b.mikanItem.isSome then b.mikanItem else old.mikanItem := rfl

lemma mergeBangumi_tmdbItem (old b : Bangumi) :
    (mergeBangumi old b).tmdbItem =
      if old.tmdbID.isNone && b.tmdbItem.isSome then b.tmdbItem else old.tmdbItem := rfl

lemma leadMatch_iff (n : List Char) : ∀ h : List Char, leadMatch n h = true ↔ n <+: h := by
  induction n with
  | nil => intro h; simp [leadMatch]
  | cons a as ih =>
    intro h
    cases h with
    | nil => simp [leadMatch]
    | cons b bs => simp [leadMatch, ih, List.cons_prefix_cons]

lemma someWhereMatch_iff (n : List Char) : ∀ h : List Char,
    someWhereMatch n h = true ↔ n <:+: h := by
  intro h
  induction h with
  | nil => simp [someWhereMatch, List.isEmpty_iff]
  | cons c t ih => simp [someWhereMatch, leadMatch_iff, ih, List.infix_cons_iff]

/-- `strContains` computes exactly substring occurrence (`List.IsInfix` on
the character data), the semantics of SQLite `instr(hay, needle) > 0`. -/
lemma strContains_iff (hay needle : String) :
    strContains hay needle = true ↔ needle.data <:+: hay.data :=
  someWhereMatch_iff needle.data hay.data

lemma sameKey_iff (a b : EpisodeMetadata) : sameKey a b = true ↔ dedupKey a = dedupKey b := by
  simp only [sameKey, dedupKey, Bool.and_eq_true, beq_iff_eq, Prod.mk.injEq]
  tauto

lemma any_sameKey_iff (l : List EpisodeMetadata) (n : EpisodeMetadata) :
    (l.any fun e => sameKey e n) = true ↔ dedupKey n ∈ metaKeys l := by
  simp only [List.any_eq_true, sameKey_iff, metaKeys, List.mem_map]

lemma metaKeys_nil : metaKeys [] = [] := rfl

lemma metaKeys_cons (m : EpisodeMetadata) (l : List EpisodeMetadata) :
    metaKeys (m :: l) = dedupKey m :: metaKeys l := rfl

lemma metaKeys_append (l1 l2 : List EpisodeMetadata) :
    metaKeys (l1 ++ l2) = metaKeys l1 ++ metaKeys l2 := by
  simp [metaKeys]

lemma dedupKey_setBID (m : EpisodeMetadata) (i : Int) :
    dedupKey { m with bangumiID := i } = dedupKey m := rfl

lemma metaKeys_setBID (l : List EpisodeMetadata) (i : Int) :
    metaKeys (l.map fun m => { m with bangumiID := i }) = metaKeys l := by
  induction l with
  | nil => rfl
  | cons a t ih => simp only [List.map_cons, metaKeys_cons, dedupKey_setBID, ih]

lemma mergeMetas_keys_mem (news : List EpisodeMetadata) :
    ∀ (old : List EpisodeMetadata) (bid : Int)
      (k : String × Int × String × String × String),
      k ∈ metaKeys (mergeMetas old news bid) ↔ k ∈ metaKeys old ∨ k ∈ metaKeys news := by
  induction news with
  | nil => intro old bid k; simp [mergeMetas, metaKeys_nil]
  | cons n ns ih =>
    intro old bid k
    simp only [mergeMetas]
    by_cases h : (old.any fun e => sameKey e n) = true
    · have hk : dedupKey n ∈ metaKeys old := (any_sameKey_iff old n).mp h
      rw [if_pos h, ih old bid k, metaKeys_cons]
      constructor
      · rintro (h1 | h1)
        · exact Or.inl h1
        · exact Or.inr (List.mem_cons_of_mem _ h1)
      · rintro (h1 | h1)
        · exact Or.inl h1
        · rcases List.mem_cons.mp h1 with h2 | h2
          · exact Or.inl (h2 ▸ hk)
          · exact Or.inr h2
    · rw [if_neg h, ih _ bid k, metaKeys_append]
      simp only [metaKeys_cons, metaKeys_nil, dedupKey_setBID, List.mem_append,
        List.mem_cons, List.mem_singleton, List.not_mem_nil]
      tauto

lemma mergeMetas_nodup (news : List EpisodeMetadata) :
    ∀ (old : List EpisodeMetadata) (bid : Int),
      (metaKeys old).Nodup → (metaKeys (mergeMetas old news bid)).Nodup := by
  induction news with
  | nil => intro old bid h; simpa [mergeMetas] using h
  | cons n ns ih =>
    intro old bid h
    simp only [mergeMetas]
    by_cases hc : (old.any fun e => sameKey e n) = true
    · rw [if_pos hc]; exact ih old bid h
    · rw [if_neg hc]
      refine ih _ bid ?_
      have hnm : dedupKey n ∉ metaKeys old := fun hm => hc ((any_sameKey_iff old n).mpr hm)
      rw [metaKeys_append]
      refine List.Nodup.append h ?_ ?_
      · simp only [metaKeys_cons, metaKeys_nil]
        exact List.nodup_singleton _
      · intro a ha hb
        simp only [metaKeys_cons, metaKeys_nil, dedupKey_setBID, List.mem_singleton] at hb
        rw [hb] at ha
        exact hnm ha

lemma mergeMetas_keeps_old (news : List EpisodeMetadata) :
    ∀ (old : List EpisodeMetadata) (bid : Int), old <+: mergeMetas old news bid := by
  induction news with
  | nil => intro old bid; simp [mergeMetas]
  | cons n ns ih =>
    intro old bid
    simp only [mergeMetas]
    by_cases hc : (old.any fun e => sameKey e n) = true
    · rw [if_pos hc]; exact ih old bid
    · rw [if_neg hc]
      exact (List.prefix_append old _).trans (ih _ bid)

lemma mergeMetas_entries (news : List EpisodeMetadata) :
    ∀ (old : List EpisodeMetadata) (bid : Int) (r : EpisodeMetadata),
      r ∈ mergeMetas old news bid →
      r ∈ old ∨ (r.bangumiID = bid ∧ ∃ n, n ∈ news ∧ r = { n with bangumiID := bid }) := by
  induction news with
  | nil => intro old bid r h; exact Or.inl (by simpa [mergeMetas] using h)
  | cons n ns ih =>
    intro old bid r h
    simp only [mergeMetas] at h
    by_cases hc : (old.any fun e => sameKey e n) = true
    · rw [if_pos hc] at h
      rcases ih old bid r h with h1 | ⟨h1, n', hn', h2⟩
      · exact Or.inl h1
      · exact Or.inr ⟨h1, n', List.mem_cons_of_mem _ hn', h2⟩
    · rw [if_neg hc] at h
      rcases ih _ bid r h with h1 | ⟨h1, n', hn', h2⟩
      · rcases List.mem_append.mp h1 with h2 | h2
        · exact Or.inl h2
        · have hr : r = { n with bangumiID := bid } := by simpa using h2
          exact Or.inr ⟨by rw [hr], n, List.mem_cons_self n ns, hr⟩
      · exact Or.inr ⟨h1, n', List.mem_cons_of_mem _ hn', h2⟩

lemma carries_extract {b : Bangumi} {m : Int} (h : carriesMikan b m = true) :
    extractMikanID b = m := by
  cases hbm : b.mikanID with
  | some x =>
    cases hbi : b.mikanItem with
    | some it =>
      simp [carriesMikan, hbm, hbi] at h
      simp [extractMikanID, hbm, h.1]
    | none =>
      simp [carriesMikan, hbm, hbi] at h
      simp [extractMikanID, hbm, h]
  | none =>
    cases hbi : b.mikanItem with
    | some it =>
      simp [carriesMikan, hbm, hbi] at h
      simp [extractMikanID, hbm, hbi, h]
    | none => simp [carriesMikan, hbm, hbi] at h

lemma normalize_carries {b : Bangumi} {m : Int} (h : carriesMikan b m = true) (k : Int) :
    (normalizeBangumi { b with id := k }).mikanID = some m ∧
    ∀ it, (normalizeBangumi { b with id := k }).mikanItem = some it → it.id = m := by
  cases hbi : b.mikanItem with
  | some it =>
    cases hbm : b.mikanID with
    | some x =>
      simp [carriesMikan, hbm, hbi] at h
      constructor
      · simp [normalizeBangumi, hbi, h.2]
      · intro it' hit'
        simp [normalizeBangumi, hbi] at hit'
        rw [← hit']
        exact h.2
    | none =>
      simp [carriesMikan, hbm, hbi] at h
      constructor
      · simp [normalizeBangumi, hbi, h]
      · intro it' hit'
        simp [normalizeBangumi, hbi] at hit'
        rw [← hit']
        exact h
  | none =>
    cases hbm : b.mikanID with
    | some x =>
      simp [carriesMikan, hbm, hbi] at h
      constructor
      · simp [normalizeBangumi, hbi, hbm, h]
      · intro it' hit'
        simp [normalizeBangumi, hbi] at hit'
    | none => simp [carriesMikan, hbm, hbi] at h

lemma CreateBangumi_emptyDB (b : Bangumi) (hid : b.id = 0) :
    CreateBangumi emptyDB b =
      { rows := [normalizeBangumi { b with id := 1 }], nextID := 2 } := by
  unfold CreateBangumi
  have hlk : lookupBangumi emptyDB (extractMikanID b) (extractTmdbID b) =
      Except.error GormErr.recordNotFound := rfl
  rw [hlk]
  unfold SaveBangumi
  rw [if_pos hid]
  rfl

lemma CreateBangumi_single_row (v c : Bangumi) (nid m : Int)
    (hv : v.mikanID = some m)
    (hvi : ∀ it, v.mikanItem = some it → it.id = m)
    (hvid : v.id ≠ 0) (hc : carriesMikan c m = true) :
    CreateBangumi { rows := [v], nextID := nid } c =
      { rows := [normalizeBangumi (mergeBangumi v c)], nextID := nid } ∧
    (normalizeBangumi (mergeBangumi v c)).mikanID = some m ∧
    (∀ it, (normalizeBangumi (mergeBangumi v c)).mikanItem = some it → it.id = m) ∧
    (normalizeBangumi (mergeBangumi v c)).id = v.id := by
  have hext : extractMikanID c = m := carries_extract hc
  have hpred : (v.mikanID == some (extractMikanID c) ||
      v.tmdbID == some (extractTmdbID c)) = true := by
    rw [hext, hv]; simp
  have hfind : lookupBangumi { rows := [v], nextID := nid }
      (extractMikanID c) (extractTmdbID c) = Except.ok v := by
    unfold lookupBangumi
    simp only [List.find?]
    rw [hpred]
  have hmid : (mergeBangumi v c).id = v.id := rfl
  have hmm : (mergeBangumi v c).mikanItem = v.mikanItem := by
    simp [mergeBangumi, hv]
  have hnmitem : (normalizeBangumi (mergeBangumi v c)).mikanItem = v.mikanItem := hmm
  refine ⟨?_, ?_, ?_, rfl⟩
  · unfold CreateBangumi
    rw [hfind]
    show (if v.id ≠ 0 then SaveBangumi { rows := [v], nextID := nid } (mergeBangumi v c)
        else SaveBangumi { rows := [v], nextID := nid } c) =
      { rows := [normalizeBangumi (mergeBangumi v c)], nextID := nid }
    rw [if_pos hvid]
    unfold SaveBangumi
    rw [if_neg (show ¬(mergeBangumi v c).id = 0 from by rw [hmid]; exact hvid)]
    simp only [List.map_cons, List.map_nil, hmid]
    simp
  · cases hvm : v.mikanItem with
    | some it =>
      have : (normalizeBangumi (mergeBangumi v c)).mikanID = some it.id := by
        unfold normalizeBangumi
        rw [hmm, hvm]
      rw [this, hvi it hvm]
    | none =>
      have : (normalizeBangumi (mergeBangumi v c)).mikanID = (mergeBangumi v c).mikanID := by
        unfold normalizeBangumi
        rw [hmm, hvm]
      rw [this, show (mergeBangumi v c).mikanID = v.mikanID from rfl, hv]
  · intro it hit
    rw [hnmitem] at hit
    exact hvi it hit

lemma foldl_single_row (m : Int) (cs : List Bangumi) :
    ∀ (v : Bangumi) (nid : Int),
      v.mikanID = some m → (∀ it, v.mikanItem = some it → it.id = m) → v.id ≠ 0 →
      (∀ b ∈ cs, carriesMikan b m = true) →
      ∃ w, cs.foldl CreateBangumi { rows := [v], nextID := nid } =
          { rows := [w], nextID := nid } ∧ w.mikanID = some m := by
  induction cs with
  | nil => intro v nid hv _ _ _; exact ⟨v, rfl, hv⟩
  | cons c cs ih =>
    intro v nid hv hvi hvid hall
    obtain ⟨heq, hm, hit, hid⟩ :=
      CreateBangumi_single_row v c nid m hv hvi hvid (hall c (List.mem_cons_self c cs))
    rw [List.foldl_cons, heq]
    exact ih _ nid hm hit (by rw [hid]; exact hvid)
      (fun b hb => hall b (List.mem_cons_of_mem _ hb))

lemma mapInsert_mem {mp : List (String × Torrent)} {k : String} {t : Torrent}
    {kt : String × Torrent} (h : kt ∈ mapInsert mp k t) : kt ∈ mp ∨ kt = (k, t) := by
  unfold mapInsert at h
  by_cases hc : (mp.any fun p => p.1 == k) = true
  · rw [if_pos hc] at h
    rcases List.mem_map.mp h with ⟨p, hp, hpe⟩
    by_cases hpk : (p.1 == k) = true
    · rw [if_pos hpk] at hpe
      exact Or.inr hpe.symm
    · rw [if_neg hpk] at hpe
      exact Or.inl (hpe ▸ hp)
  · rw [if_neg hc] at h
    rcases List.mem_append.mp h with h1 | h1
    · exact Or.inl h1
    · exact Or.inr (by simpa using h1)

lemma findFold_inv (table : List EpisodeMetadata) (filterTorrent : Torrent → Bool)
    (parseTitle : String → Option RawTitle) (R : Torrent → Prop) :
    ∀ (ts : List Torrent) (acc : List (String × Torrent) × List Torrent),
      (∀ t ∈ ts, GetBangumiParseByTitle table t.name = none → filterTorrent t = true → R t) →
      (∀ t ∈ acc.2, R t) → (∀ kt ∈ acc.1, R kt.2) →
      (∀ t ∈ (ts.foldl (findStep table filterTorrent parseTitle) acc).2, R t) ∧
      (∀ kt ∈ (ts.foldl (findStep table filterTorrent parseTitle) acc).1, R kt.2) := by
  intro ts
  induction ts with
  | nil => intro acc _ h2 h1; exact ⟨h2, h1⟩
  | cons t ts ih =>
    intro acc hts h2 h1
    rw [List.foldl_cons]
    have hRt : GetBangumiParseByTitle table t.name = none → filterTorrent t = true → R t :=
      hts t (List.mem_cons_self t ts)
    refine ih _ (fun u hu ha hb => hts u (List.mem_cons_of_mem _ hu) ha hb) ?_ ?_
    · intro u hu
      cases hlk : GetBangumiParseByTitle table t.name with
      | some p =>
        simp only [findStep, hlk] at hu
        exact h2 u hu
      | none =>
        cases hf : filterTorrent t with
        | false =>
          simp only [findStep, hlk, hf, Bool.false_eq_true, if_false] at hu
          exact h2 u hu
        | true =>
          cases hp : parseTitle t.name with
          | some raw =>
            simp [findStep, hlk, hf, hp] at hu
            rcases hu with h | h
            · exact h2 u h
            · rw [h]; exact hRt hlk hf
          | none =>
            simp [findStep, hlk, hf, hp] at hu
            rcases hu with h | h
            · exact h2 u h
            · rw [h]; exact hRt hlk hf
    · intro kt hkt
      cases hlk : GetBangumiParseByTitle table t.name with
      | some p =>
        simp only [findStep, hlk] at hkt
        exact h1 kt hkt
      | none =>
        cases hf : filterTorrent t with
        | false =>
          simp only [findStep, hlk, hf, Bool.false_eq_true, if_false] at hkt
          exact h1 kt hkt
        | true =>
          cases hp : parseTitle t.name with
          | some raw =>
            simp only [findStep, hlk, hf, hp, if_true] at hkt
            rcases mapInsert_mem hkt with h | h
            · exact h1 kt h
            · rw [h]; exact hRt hlk hf
          | none =>
            simp only [findStep, hlk, hf, hp, if_true] at hkt
            exact h1 kt hkt

/-! Claim theorems. -/

/-- C1: Idempotent merge. Starting from empty storage, calling
`CreateBangumi` twice with candidates carrying the same release-tracker
(Mikan) external id — their `EpisodeMetadata` sets disjoint or overlapping —
leaves exactly one `Bangumi` row, and the surviving row's metadata has no two
entries sharing a dedup key while containing exactly the dedup keys of both
candidates' entries (coinciding keys stored once, differing keys all
retained). `hnd` says the first candidate's metadata is a set (key-distinct),
which the storage unique index `idx_episode_metadata_unique` guarantees for
everything the create path persists. -/
theorem c1_idempotent_merge (b1 b2 : Bangumi) (m : Int)
    (h1 : carriesMikan b1 m = true) (h2 : carriesMikan b2 m = true)
    (hid1 : b1.id = 0)
    (hnd : (metaKeys b1.episodeMetadata).Nodup) :
    (CreateBangumi (CreateBangumi emptyDB b1) b2).rows.length = 1 ∧
    ∀ r ∈ (CreateBangumi (CreateBangumi emptyDB b1) b2).rows,
      (metaKeys r.episodeMetadata).Nodup ∧
      ∀ k, k ∈ metaKeys r.episodeMetadata ↔
        (k ∈ metaKeys b1.episodeMetadata ∨ k ∈ metaKeys b2.episodeMetadata) := by
  rw [CreateBangumi_emptyDB b1 hid1]
  obtain ⟨hm, hitem⟩ := normalize_carries h1 1
  have hvid : (normalizeBangumi { b1 with id := 1 }).id ≠ 0 := by
    show ¬((1 : Int) = 0); decide
  obtain ⟨heq, _, _, _⟩ :=
    CreateBangumi_single_row (normalizeBangumi { b1 with id := 1 }) b2 2 m hm hitem hvid h2
  rw [heq]
  refine ⟨rfl, ?_⟩
  intro r hr
  rw [List.mem_singleton] at hr
  subst hr
  have hwm : metaKeys (normalizeBangumi
        (mergeBangumi (normalizeBangumi { b1 with id := 1 }) b2)).episodeMetadata =
      metaKeys (mergeMetas (normalizeBangumi { b1 with id := 1 }).episodeMetadata
        b2.episodeMetadata (normalizeBangumi { b1 with id := 1 }).id) :=
    metaKeys_setBID _ _
  have hv1keys : metaKeys (normalizeBangumi { b1 with id := 1 }).episodeMetadata =
      metaKeys b1.episodeMetadata :=
    metaKeys_setBID _ _
  constructor
  · rw [hwm]
    exact mergeMetas_nodup _ _ _ (by rw [hv1keys]; exact hnd)
  · intro k
    rw [hwm, mergeMetas_keys_mem _ _ _ k, hv1keys]

/-- C1 witness: the theorem applied to two concrete candidates carrying
Mikan id 11, whose metadata sets overlap in `c1m1`. -/
theorem c1_witness :
    (CreateBangumi (CreateBangumi emptyDB c1b1) c1b2).rows.length = 1 :=
  (c1_idempotent_merge c1b1 c1b2 11 (by decide) (by decide) rfl (by decide)).1

/-- C2 counterexample: an entity is created with only a Mikan link (one row);
a later call whose candidate carries only a TMDB id for the same title does
NOT find it — the OR lookup compares the extracted Mikan id 0 and the
extracted TMDB id 7 against the stored links (`mikan_id = 5`,
`tmdb_id = NULL`), neither matches — so a second row is created, refuting
"finds that entity ... storage still holds only one row". -/
theorem c2_counterexample :
    (CreateBangumi emptyDB c2a).rows.length = 1 ∧
    (CreateBangumi (CreateBangumi emptyDB c2a) c2b).rows.length = 2 := by
  constructor <;> decide

/-- C2 amended: OR-matching fills both links while keeping one row when the
later candidate carries the same release-tracker id together with the
metadata-catalog record: an entity created with only a Mikan link, merged
against a candidate carrying that same Mikan id plus an embedded TMDB
record, is found via the OR lookup and afterwards has both links populated
with storage still holding exactly one row. A candidate carrying only the
TMDB id matches nothing and creates a second row (see the counterexample). -/
theorem c2_or_matching_amended (b1 b2 : Bangumi) (m : Int) (it : TmdbItem)
    (h1 : carriesMikan b1 m = true) (hid1 : b1.id = 0)
    (h1t : b1.tmdbID = none) (h1ti : b1.tmdbItem = none)
    (h2 : carriesMikan b2 m = true) (h2ti : b2.tmdbItem = some it) :
    (CreateBangumi (CreateBangumi emptyDB b1) b2).rows.length = 1 ∧
    ∀ r ∈ (CreateBangumi (CreateBangumi emptyDB b1) b2).rows,
      r.mikanID = some m ∧ r.tmdbID = some it.id := by
  rw [CreateBangumi_emptyDB b1 hid1]
  obtain ⟨hm, hitem⟩ := normalize_carries h1 1
  have hvid : (normalizeBangumi { b1 with id := 1 }).id ≠ 0 := by
    show ¬((1 : Int) = 0); decide
  obtain ⟨heq, hm2, _, _⟩ :=
    CreateBangumi_single_row (normalizeBangumi { b1 with id := 1 }) b2 2 m hm hitem hvid h2
  rw [heq]
  refine ⟨rfl, ?_⟩
  intro r hr
  rw [List.mem_singleton] at hr
  subst hr
  refine ⟨hm2, ?_⟩
  have hv1t : (normalizeBangumi { b1 with id := 1 }).tmdbID = none := by
    show (match b1.tmdbItem with | some y => some y.id | none => b1.tmdbID) = none
    rw [h1ti]
    exact h1t
  have hmt : (mergeBangumi (normalizeBangumi { b1 with id := 1 }) b2).tmdbItem = some it := by
    rw [mergeBangumi_tmdbItem, hv1t, h2ti]
    simp
  exact normalizeBangumi_tmdbID_item hmt

/-- C2 amended, witness: Mikan id 5 entity, then a candidate with Mikan id 5
plus an embedded TMDB record with id 7. -/
theorem c2_witness :
    (CreateBangumi (CreateBangumi emptyDB c2wb1) c2wb2).rows.length = 1 :=
  (c2_or_matching_amended c2wb1 c2wb2 5 c2wit (by decide) rfl rfl rfl
    (by decide) rfl).1

/-- C3 counterexample: the existing entity (single row, Mikan link null) is
found via its TMDB link; the candidate supplies a Mikan id as the scalar
external-ID field (`mikanID = some 5`) with no embedded `MikanItem`, yet
after the merge the stored row's Mikan link is still null — refuting "as
scalar external-ID field or embedded catalog record, whichever is
present". -/
theorem c3_counterexample :
    (CreateBangumi (CreateBangumi emptyDB c3a) c3b).rows.map (fun r => r.mikanID) = [none] ∧
    (CreateBangumi (CreateBangumi emptyDB c3a) c3b).rows.length = 1 := by
  constructor <;> decide

/-- C3 amended: on the merge path a null link is filled only from the
candidate's embedded catalog record: if the existing entity's Mikan link is
null and the candidate carries an embedded `MikanItem`, the link is attached
(and persisting sets the foreign key to that record's id); symmetrically for
the TMDB link; when the candidate has no embedded record the corresponding
link association is left unchanged, whatever scalar external-ID field the
candidate carries. -/
theorem c3_merge_link_fill (old b : Bangumi) :
    (∀ mi, old.mikanID = none → b.mikanItem = some mi →
      (normalizeBangumi (mergeBangumi old b)).mikanID = some mi.id) ∧
    (∀ ti, old.tmdbID = none → b.tmdbItem = some ti →
      (normalizeBangumi (mergeBangumi old b)).tmdbID = some ti.id) ∧
    (b.mikanItem = none → (mergeBangumi old b).mikanItem = old.mikanItem) ∧
    (b.tmdbItem = none → (mergeBangumi old b).tmdbItem = old.tmdbItem) := by
  refine ⟨?_, ?_, ?_, ?_⟩
  · intro mi hold hb
    have hmm : (mergeBangumi old b).mikanItem = some mi := by
      rw [mergeBangumi_mikanItem, hold, hb]
      simp
    exact normalizeBangumi_mikanID_item hmm
  · intro ti hold hb
    have hmt : (mergeBangumi old b).tmdbItem = some ti := by
      rw [mergeBangumi_tmdbItem, hold, hb]
      simp
    exact normalizeBangumi_tmdbID_item hmt
  · intro hb
    rw [mergeBangumi_mikanItem, hb]
    simp
  · intro hb
    rw [mergeBangumi_tmdbItem, hb]
    simp

/-- C3 amended, witness: an existing entity with null Mikan link merged with
a candidate embedding a `MikanItem` with id 11 ends up linked to 11. -/
theorem c3_witness :
    (normalizeBangumi (mergeBangumi c3wOld c3wB)).mikanID = some 11 :=
  (c3_merge_link_fill c3wOld c3wB).1 c3wItem rfl rfl

/-- C4: Dedup key completeness of the merge path. In `mergeMetas` (the loop
of lines 157-175): (1) a key is present in the result exactly when it is a
key of an already-attached entry or of some candidate entry; (2) if the
attached entries are key-distinct the result stays key-distinct — so a
candidate whose key is already present is discarded, and one whose key is
absent is appended; (3) attached entries are all retained, in order; (4)
every result entry is an old entry or a candidate entry restamped with the
existing entity's id; (5) two candidates differing only in resolution are
both stored; (6) two candidates with the same five key fields (even if other
fields differ) yield one stored record. -/
theorem c4_dedup_key_completeness :
    (∀ (old news : List EpisodeMetadata) (bid : Int)
        (k : String × Int × String × String × String),
        k ∈ metaKeys (mergeMetas old news bid) ↔ k ∈ metaKeys old ∨ k ∈ metaKeys news) ∧
    (∀ (old news : List EpisodeMetadata) (bid : Int),
        (metaKeys old).Nodup → (metaKeys (mergeMetas old news bid)).Nodup) ∧
    (∀ (old news : List EpisodeMetadata) (bid : Int), old <+: mergeMetas old news bid) ∧
    (∀ (old news : List EpisodeMetadata) (bid : Int) (r : EpisodeMetadata),
        r ∈ mergeMetas old news bid →
        r ∈ old ∨ (r.bangumiID = bid ∧ ∃ n, n ∈ news ∧ r = { n with bangumiID := bid })) ∧
    mergeMetas [] [em1080, em720] 3 =
      [{ em1080 with bangumiID := 3 }, { em720 with bangumiID := 3 }] ∧
    mergeMetas [] [em1080, em1080b] 3 = [{ em1080 with bangumiID := 3 }] := by
  refine ⟨fun old news bid k => mergeMetas_keys_mem news old bid k,
    fun old news bid => mergeMetas_nodup news old bid,
    fun old news bid => mergeMetas_keeps_old news old bid,
    fun old news bid => mergeMetas_entries news old bid,
    by decide, by decide⟩

/-- C4 witness: the Nodup clause applied to concrete attached and candidate
entries. -/
theorem c4_witness : (metaKeys (mergeMetas [em1080] [em720] 3)).Nodup :=
  c4_dedup_key_completeness.2.1 [em1080] [em720] 3 (by decide)

/-- C5: Concurrency safety of create. The global `bangumiCreateMutex` is
held for the whole of `CreateBangumi`, so N concurrent calls execute as N
sequential calls in some arbitrary order; for every such order (any list of
N ≥ 8 fresh candidates all coherently carrying the same previously-unseen
Mikan id), the resulting store holds exactly one `Bangumi` row. -/
theorem c5_concurrency_serialized (cs : List Bangumi) (m : Int)
    (hlen : 8 ≤ cs.length)
    (hall : ∀ b ∈ cs, carriesMikan b m = true ∧ b.id = 0) :
    (cs.foldl CreateBangumi emptyDB).rows.length = 1 := by
  cases cs with
  | nil => exact absurd hlen (by decide)
  | cons c cs' =>
    obtain ⟨hc, hcid⟩ := hall c (List.mem_cons_self c cs')
    rw [List.foldl_cons, CreateBangumi_emptyDB c hcid]
    obtain ⟨hm, hitem⟩ := normalize_carries hc 1
    obtain ⟨w, hw, _⟩ := foldl_single_row m cs' (normalizeBangumi { c with id := 1 }) 2
      hm hitem (by show ¬((1 : Int) = 0); decide)
      (fun b hb => (hall b (List.mem_cons_of_mem _ hb)).1)
    rw [hw]
    rfl

/-- C5 witness: eight identical calls carrying the unseen Mikan id 11. -/
theorem c5_witness :
    ((List.replicate 8 c5cand).foldl CreateBangumi emptyDB).rows.length = 1 :=
  c5_concurrency_serialized (List.replicate 8 c5cand) 11 (by decide)
    (by
      intro b hb
      rw [List.eq_of_mem_replicate hb]
      exact ⟨by decide, rfl⟩)

/-- C6: Containment matching. `GetBangumiParseByTitle` returns a stored
record exactly when some stored record's `title` and `group` are both
substrings of the release name, the returned record itself satisfies both
containments, and on the spec's concrete example the stored
{title "Frieren", group "ABC"} matches "[ABC] Frieren - 05 [1080p]" and not
"[XYZ] Frieren - 05 [1080p]". -/
theorem c6_containment_matching :
    (∀ (table : List EpisodeMetadata) (name : String),
        (∃ p, GetBangumiParseByTitle table name = some p) ↔
          ∃ r ∈ table, strContains name r.title = true ∧ strContains name r.group = true) ∧
    (∀ (table : List EpisodeMetadata) (name : String) (p : EpisodeMetadata),
        GetBangumiParseByTitle table name = some p →
          p ∈ table ∧ strContains name p.title = true ∧ strContains name p.group = true) ∧
    GetBangumiParseByTitle [frierenMeta] "[ABC] Frieren - 05 [1080p]" = some frierenMeta ∧
    GetBangumiParseByTitle [frierenMeta] "[XYZ] Frieren - 05 [1080p]" = none := by
  refine ⟨?_, ?_, by decide, by decide⟩
  · intro table name
    constructor
    · rintro ⟨p, hp⟩
      have h1 := List.find?_some hp
      rw [Bool.and_eq_true] at h1
      exact ⟨p, List.mem_of_find?_eq_some hp, h1.1, h1.2⟩
    · rintro ⟨r, hr, ht, hg⟩
      have hs : (List.find?
          (fun p => strContains name p.title && strContains name p.group) table).isSome := by
        rw [List.find?_isSome]
        exact ⟨r, hr, by simp [ht, hg]⟩
      obtain ⟨p, hp⟩ := Option.isSome_iff_exists.mp hs
      exact ⟨p, hp⟩
  · intro table name p hp
    have h1 := List.find?_some hp
    rw [Bool.and_eq_true] at h1
    exact ⟨List.mem_of_find?_eq_some hp, h1.1, h1.2⟩

/-- C6 witness: the returned-record clause applied to the spec's example. -/
theorem c6_witness :
    frierenMeta ∈ [frierenMeta] ∧
    strContains "[ABC] Frieren - 05 [1080p]" frierenMeta.title = true ∧
    strContains "[ABC] Frieren - 05 [1080p]" frierenMeta.group = true :=
  c6_containment_matching.2.1 [frierenMeta] "[ABC] Frieren - 05 [1080p]" frierenMeta (by decide)

/-- C7: Lookup-fault atomicity. When the entity lookup inside
`CreateBangumi` fails with any storage error other than record-not-found,
the operation returns that error and produces no new store state (no write);
record-not-found is not an error and leads to the create path; and the pure
in-model lookup never triggers the abort branch. -/
theorem c7_lookup_fault_atomicity :
    (∀ (e : GormErr) (s : DBState) (b : Bangumi), e ≠ GormErr.recordNotFound →
        CreateBangumiCore (Except.error e) s b = Except.error e) ∧
    (∀ (s : DBState) (b : Bangumi),
        CreateBangumiCore (Except.error GormErr.recordNotFound) s b =
          Except.ok (SaveBangumi s b)) ∧
    (∀ (s : DBState) (b : Bangumi),
        CreateBangumiCore (lookupBangumi s (extractMikanID b) (extractTmdbID b)) s b =
          Except.ok (CreateBangumi s b)) := by
  refine ⟨?_, ?_, ?_⟩
  · intro e s b he
    unfold CreateBangumiCore
    show (if e = GormErr.recordNotFound then Except.ok (SaveBangumi s b)
        else Except.error e) = Except.error e
    rw [if_neg he]
  · intro s b
    unfold CreateBangumiCore
    show (if GormErr.recordNotFound = GormErr.recordNotFound then Except.ok (SaveBangumi s b)
        else Except.error GormErr.recordNotFound) = Except.ok (SaveBangumi s b)
    rw [if_pos rfl]
  · intro s b
    unfold CreateBangumiCore CreateBangumi
    cases hlk : lookupBangumi s (extractMikanID b) (extractTmdbID b) with
    | ok old =>
      show (if old.id ≠ 0 then Except.ok (SaveBangumi s (mergeBangumi old b))
          else Except.ok (SaveBangumi s b)) =
        Except.ok (if old.id ≠ 0 then SaveBangumi s (mergeBangumi old b) else SaveBangumi s b)
      by_cases h : old.id ≠ 0
      · rw [if_pos h, if_pos h]
      · rw [if_neg h, if_neg h]
    | error e =>
      have he : e = GormErr.recordNotFound := by
        unfold lookupBangumi at hlk
        cases hfind : s.rows.find?
            (fun r => r.mikanID == some (extractMikanID b) ||
              r.tmdbID == some (extractTmdbID b)) with
        | some r => rw [hfind] at hlk; exact Except.noConfusion hlk
        | none =>
          rw [hfind] at hlk
          exact (Except.error.inj hlk).symm
      subst he
      show (if GormErr.recordNotFound = GormErr.recordNotFound
          then Except.ok (SaveBangumi s b) else Except.error GormErr.recordNotFound) =
        Except.ok (SaveBangumi s b)
      rw [if_pos rfl]

/-- C7 witness: an injected disk fault is surfaced unchanged, with no store
state produced. -/
theorem c7_witness :
    CreateBangumiCore (Except.error (GormErr.fault "disk")) emptyDB defaultBangumi =
      Except.error (GormErr.fault "disk") :=
  c7_lookup_fault_atomicity.1 (GormErr.fault "disk") emptyDB defaultBangumi (by decide)

/-- C8 counterexample: in the fast-attach flow, a storage fault on the
torrent-existence lookup for the first release makes `RefreshRSS` process
nothing at all — the sibling release is also dropped — because the fault
inside `CheckNewTorrents` aborts the whole batch and `getTorrents` swallows
the error into an empty slice. Without the fault both releases are
processed, so the failure on one release did abort its sibling, refuting the
claim. -/
theorem c8_counterexample :
    RefreshRSS c8clkBad c8mlk c8tlk "u" [c8t1, c8t2] = [] ∧
    (RefreshRSS c8clkOk c8mlk c8tlk "u" [c8t1, c8t2]).length = 2 := by
  constructor <;> decide

/-- C8 amended: per-item isolation holds inside the per-release loop of
`RefreshRSS` — a metadata-lookup failure skips only that release, and the
in-loop existence lookup's error is discarded — so the loop's output for any
release list decomposes pointwise, each release being processed independently
of its siblings; but a torrent-existence fault in the `CheckNewTorrents`
pre-filtering step aborts the entire pull (see the counterexample). -/
theorem c8_per_item_isolation_loop (mlk : String → Except GormErr EpisodeMetadata)
    (tlk : String → Option Torrent) (ts1 ts2 : List Torrent) (t : Torrent) :
    refreshLoop mlk tlk (ts1 ++ t :: ts2) =
      refreshLoop mlk tlk ts1 ++ refreshLoop mlk tlk [t] ++ refreshLoop mlk tlk ts2 := by
  unfold refreshLoop
  rw [show (ts1 ++ t :: ts2) = ts1 ++ ([t] ++ ts2) from rfl,
    List.filterMap_append, List.filterMap_append, List.append_assoc]

/-- C9: Fast/slow split in `FindNewBangumi`. Every torrent handed to the
title parser is a pulled release for which the Title Match Index reported no
existing metadata and which passed the admissibility filter; and every
release dispatched for resolution (placed in the `newTorrents` map) likewise
matched no metadata and passed the filter. -/
theorem c9_fast_slow_split (table : List EpisodeMetadata)
    (filterTorrent : Torrent → Bool) (parseTitle : String → Option RawTitle)
    (torrents : List Torrent) :
    (∀ t ∈ (FindNewBangumi table filterTorrent parseTitle torrents).2,
        GetBangumiParseByTitle table t.name = none ∧ filterTorrent t = true ∧ t ∈ torrents) ∧
    (∀ kt ∈ (FindNewBangumi table filterTorrent parseTitle torrents).1,
        GetBangumiParseByTitle table kt.2.name = none ∧ filterTorrent kt.2 = true ∧
          kt.2 ∈ torrents) :=
  findFold_inv table filterTorrent parseTitle
    (fun t => GetBangumiParseByTitle table t.name = none ∧ filterTorrent t = true ∧
      t ∈ torrents)
    torrents ([], []) (fun t ht hl hf => ⟨hl, hf, ht⟩)
    (fun t ht => absurd ht (List.not_mem_nil t))
    (fun kt hkt => absurd hkt (List.not_mem_nil kt))

/-- C9 witness: with metadata for "Frieren"/"ABC" stored, the release whose
name matches nothing was passed to the parser only after the index reported
none and the filter passed. -/
theorem c9_witness :
    GetBangumiParseByTitle [c9meta] c9t2.name = none ∧ c9filter c9t2 = true ∧
      c9t2 ∈ [c9t1, c9t2] :=
  (c9_fast_slow_split [c9meta] c9filter c9parse [c9t1, c9t2]).1 c9t2 (by decide)

/-- C10: Merge-path frame condition. When `CreateBangumi` finds an existing
entity, the only rows that change are the one with the existing entity's id
(replaced by the merged row), and the merged row keeps the stored entity's
internal id, display title, year, season, RSS link, collect flag, offset,
include/exclude filters, parser choice, poster link and soft-delete flag;
the candidate's values for those fields are ignored. -/
theorem c10_merge_frame (s : DBState) (b old : Bangumi)
    (hlk : lookupBangumi s (extractMikanID b) (extractTmdbID b) = Except.ok old)
    (hid : old.id ≠ 0) :
    (CreateBangumi s b).rows =
      s.rows.map (fun r => if r.id = old.id then normalizeBangumi (mergeBangumi old b) else r) ∧
    (normalizeBangumi (mergeBangumi old b)).id = old.id ∧
    (normalizeBangumi (mergeBangumi old b)).officialTitle = old.officialTitle ∧
    (normalizeBangumi (mergeBangumi old b)).year = old.year ∧
    (normalizeBangumi (mergeBangumi old b)).season = old.season ∧
    (normalizeBangumi (mergeBangumi old b)).rrssLink = old.rrssLink ∧
    (normalizeBangumi (mergeBangumi old b)).epsCollect = old.epsCollect ∧
    (normalizeBangumi (mergeBangumi old b)).offset = old.offset ∧
    (normalizeBangumi (mergeBangumi old b)).includeFilter = old.includeFilter ∧
    (normalizeBangumi (mergeBangumi old b)).excludeFilter = old.excludeFilter ∧
    (normalizeBangumi (mergeBangumi old b)).parse = old.parse ∧
    (normalizeBangumi (mergeBangumi old b)).posterLink = old.posterLink ∧
    (normalizeBangumi (mergeBangumi old b)).deleted = old.deleted := by
  refine ⟨?_, rfl, rfl, rfl, rfl, rfl, rfl, rfl, rfl, rfl, rfl, rfl, rfl⟩
  unfold CreateBangumi
  rw [hlk]
  show (if old.id ≠ 0 then SaveBangumi s (mergeBangumi old b) else SaveBangumi s b).rows = _
  rw [if_pos hid]
  unfold SaveBangumi
  rw [if_neg (show ¬(mergeBangumi old b).id = 0 from by rw [mergeBangumi_id]; exact hid)]
  rfl

/-- C10 witness: the frame condition at a concrete merged pair — the stored
title "Frieren" survives a merge against a candidate titled "Other". -/
theorem c10_witness :
    (CreateBangumi c10s c10b).rows =
      c10s.rows.map
        (fun r => if r.id = c10row.id then normalizeBangumi (mergeBangumi c10row c10b) else r) ∧
    (normalizeBangumi (mergeBangumi c10row c10b)).officialTitle = c10row.officialTitle :=
  ⟨(c10_merge_frame c10s c10b c10row rfl (by decide)).1,
    (c10_merge_frame c10s c10b c10row rfl (by decide)).2.2.1⟩

end GotoBangumi
